import Mathlib

/-!
Shallow embedding of the distributed-binary-server repository (Go) and
verification of its specification claims.

Conventions of the embedding:
* A Go buffered channel `chan Message` with capacity 100 is a `List Message`
  (the buffer contents, front = next to receive); a send appends at the back.
* Go's `context.Context` cancellation state is a `Bool` argument `ctxDone`
  (`true` iff `ctx.Done()` is ready).
* A Go `select` with several *ready* cases chooses nondeterministically; the
  choice is resolved by an explicit oracle argument (`pick`).  When exactly
  one case is ready (plus possibly a `default`), the behaviour is
  deterministic and the oracle is ignored.
* A Go runtime panic is the `crash` constructor of `GoResult`; a Go function
  returning `error` yields an `Option GoError` (`none` = nil error) or
  `Except GoError`.
* `time.Time` values are abstract instants, modelled as `Nat` (the Go zero
  value is `0`).
-/

/-- Capacity of every buffered channel created by the repository
(`make(chan Message, 100)` in node.go and the TCP transport). -/
def chanCap : Nat := 100

/-- Embedding of `btree.Message` (pkg/btree/message.go): `Content`, optional
`ID`, `Timestamp` (creation time), `Source` (last forwarding node). -/
structure Message where
  Content : String
  ID : String
  Timestamp : Nat
  Source : String
deriving Repr, DecidableEq

/-- Embedding of `btree.NewMessage` (pkg/btree/message.go): sets `Content`,
`ID` and the current time; `Source` keeps its zero value. -/
def NewMessage (content id : String) (now : Nat) : Message :=
  { Content := content, ID := id, Timestamp := now, Source := "" }

/-- Errors returned by the Go code (`fmt.Errorf` / `ctx.Err()` values),
identified by which return statement produced them. -/
inductive GoError
  | indexOutOfRange (index : Int) (arity : Nat)
  | contextCanceled
  | alreadyListening
  | alreadyConnected
  | bindFailed
  | dialFailed
  | noActiveConn
deriving Repr, DecidableEq

/-- Result of running a Go function that may panic at runtime: `ok` is a
normal return, `crash` is a runtime panic (not a returned `error` value). -/
inductive GoResult (α : Type)
  | ok (val : α)
  | crash (msg : String)
deriving Repr, DecidableEq

/-- Embedding of `btree.Node` (pkg/btree/node.go): `name`, the buffered
`inbound` channel, and one buffered outbound channel per child slot.
The `ctx`/`cancel`/mutex fields carry no buffered data and are represented
by the `ctxDone` arguments of the operations below. -/
structure Node where
  name : String
  inbound : List Message
  childrenOut : List (List Message)
deriving Repr, DecidableEq

/-- Embedding of `btree.NewNode` (node.go lines 21-37).  Go's
`make([]chan Message, numChildren)` panics with a `makeslice` runtime error
when `numChildren < 0`; otherwise the node has `numChildren` empty child
channels and one empty inbound channel. -/
def NewNode (name : String) (numChildren : Int) : GoResult Node :=
  if numChildren < 0 then .crash "makeslice: len out of range"
  else .ok { name := name
             inbound := []
             childrenOut := List.replicate numChildren.toNat [] }

/-- Embedding of `Node.GetNumChildren` (node.go lines 87-92). -/
def GetNumChildren (n : Node) : Nat := n.childrenOut.length

/-- Embedding of `Node.GetChildChannel` (node.go lines 59-69).  The first
component is the receiver's post-state (the method body writes no field, it
only takes a read lock), the second the `(<-chan Message, error)` return. -/
def GetChildChannel (n : Node) (index : Int) : Node × Except GoError (List Message) :=
  if index < 0 ∨ (n.childrenOut.length : Int) ≤ index then
    (n, .error (.indexOutOfRange index n.childrenOut.length))
  else
    (n, .ok (n.childrenOut.getD index.toNat []))

/-- Embedding of `Node.GetLeftChannel` (node.go lines 71-77): returns the
index-0 channel when it exists, Go `nil` (here `none`) otherwise. -/
def GetLeftChannel (n : Node) : Option (List Message) :=
  if h : 0 < n.childrenOut.length then some (n.childrenOut.get ⟨0, h⟩)
  else none

/-- Embedding of `Node.GetRightChannel` (node.go lines 79-85): returns the
index-1 channel when it exists, Go `nil` (here `none`) otherwise. -/
def GetRightChannel (n : Node) : Option (List Message) :=
  if h : 1 < n.childrenOut.length then some (n.childrenOut.get ⟨1, h⟩)
  else none

/-- One iteration per child of the loop in `Node.BroadcastToChildren`
(node.go lines 116-127).  For child `i` the three-way `select` behaves as:
the send case is ready iff the channel has room, the `ctx.Done()` case is
ready iff `ctxDone`, and `default` is taken only when neither is ready.
When both send and done are ready, `pick i` resolves the choice (`true` =
send wins).  Returns the final channel states and the returned error, if
any; channels already written before an early `return ctx.Err()` keep the
message. -/
def broadcastAux (ctxDone : Bool) (pick : Nat → Bool) (msg : Message) :
    Nat → List (List Message) → List (List Message) × Option GoError
  | _, [] => ([], none)
  | i, q :: rest =>
    if q.length < chanCap then
      if ctxDone && !(pick i) then (q :: rest, some .contextCanceled)
      else
        let r := broadcastAux ctxDone pick msg (i + 1) rest
        ((q ++ [msg]) :: r.1, r.2)
    else
      if ctxDone then (q :: rest, some .contextCanceled)
      else
        let r := broadcastAux ctxDone pick msg (i + 1) rest
        (q :: r.1, r.2)

/-- Embedding of `Node.BroadcastToChildren` (node.go lines 106-131):
zero children returns nil immediately; otherwise each child slot is tried
in index order with the non-blocking select of `broadcastAux`. -/
def BroadcastToChildren (ctxDone : Bool) (pick : Nat → Bool) (n : Node)
    (msg : Message) : Node × Option GoError :=
  if n.childrenOut.length = 0 then (n, none)
  else
    let r := broadcastAux ctxDone pick msg 0 n.childrenOut
    ({ n with childrenOut := r.1 }, r.2)

/-- Embedding of `Node.HandleMessage` (node.go lines 95-103): rewrites the
message's `Source` to the node's name (on the local copy —`msg` is passed
by value in Go), then broadcasts to all children. -/
def HandleMessage (ctxDone : Bool) (pick : Nat → Bool) (n : Node)
    (msg : Message) : Node × Option GoError :=
  BroadcastToChildren ctxDone pick n { msg with Source := n.name }

/-- Outcome of `Node.SendToChild`: normal return with nil error (`ok`),
return with an error (`err`), or the goroutine is blocked in the `select`
waiting for channel room or cancellation (`blocked`). -/
inductive SendResult
  | ok
  | err (e : GoError)
  | blocked
deriving Repr, DecidableEq

/-- Embedding of `Node.SendToChild` (node.go lines 134-148).  Out-of-range
indices return an index error before any channel operation.  In range, the
two-way `select` (send, `ctx.Done()`) sends when there is room (when both
are ready `pick` resolves the race, `true` = send wins), returns
`ctx.Err()` when only done is ready, and blocks when neither is ready.
The first component is the node's post-state. -/
def SendToChild (ctxDone pick : Bool) (n : Node) (index : Int)
    (msg : Message) : Node × SendResult :=
  if index < 0 ∨ (n.childrenOut.length : Int) ≤ index then
    (n, .err (.indexOutOfRange index n.childrenOut.length))
  else
    let i := index.toNat
    let q := n.childrenOut.getD i []
    if q.length < chanCap then
      if ctxDone && !pick then (n, .err .contextCanceled)
      else ({ n with childrenOut := n.childrenOut.set i (q ++ [msg]) }, .ok)
    else
      if ctxDone then (n, .err .contextCanceled)
      else (n, .blocked)

/-- `broadcastAux` with the context not cancelled: every child with room
receives the message, every full child is skipped, and the function returns
nil — the pointwise best-effort fan-out. -/
theorem broadcastAux_not_done (pick : Nat → Bool) (msg : Message) :
    ∀ (qs : List (List Message)) (i : Nat),
      broadcastAux false pick msg i qs =
        (qs.map (fun q => if q.length < chanCap then q ++ [msg] else q), none) := by
  intro qs
  induction qs with
  | nil => intro i; rfl
  | cons q rest ih =>
    intro i
    by_cases h : q.length < chanCap
    · simp [broadcastAux, h, ih (i + 1)]
    · simp [broadcastAux, h, ih (i + 1)]

/-- `HandleMessage` with the context not cancelled, in closed form. -/
theorem HandleMessage_not_done (pick : Nat → Bool) (n : Node) (msg : Message) :
    HandleMessage false pick n msg =
      ({ n with childrenOut :=
          n.childrenOut.map (fun q =>
            if q.length < chanCap then q ++ [{ msg with Source := n.name }] else q) },
       none) := by
  unfold HandleMessage BroadcastToChildren
  by_cases h : n.childrenOut.length = 0
  · have hnil : n.childrenOut = [] := List.length_eq_zero.mp h
    simp [h, hnil]
    cases n
    simp_all
  · simp [h, broadcastAux_not_done]

/-- Embedding of `tcp.TCPTransport` (src/unnamed/part_003): the two role
flags guarded by the mutex, and the two buffered channels.  The
`listener`/`conn` handles and the wait group carry no message data. -/
structure TCPTransport where
  isServer : Bool
  isClient : Bool
  inbound : List Message
  outbound : List Message
deriving Repr, DecidableEq

/-- Embedding of `tcp.NewTCPTransport` (part_003 lines 30-38). -/
def NewTCPTransport : TCPTransport :=
  { isServer := false, isClient := false, inbound := [], outbound := [] }

/-- Embedding of `TCPTransport.Listen` (part_003 lines 41-73): fails when
`isServer` is already set; otherwise attempts the bind (`bindOk` is whether
`net.Listen` succeeds) and on success sets `isServer`.  The `isClient` flag
is not consulted. -/
def Listen (t : TCPTransport) (bindOk : Bool) : TCPTransport × Option GoError :=
  if t.isServer then (t, some .alreadyListening)
  else if bindOk then ({ t with isServer := true }, none)
  else (t, some .bindFailed)

/-- Embedding of `TCPTransport.Connect` (part_003 lines 76-106): fails when
`isClient` is already set; otherwise attempts the dial (`dialOk` is whether
`net.Dial` succeeds) and on success sets `isClient`.  The `isServer` flag
is not consulted. -/
def Connect (t : TCPTransport) (dialOk : Bool) : TCPTransport × Option GoError :=
  if t.isClient then (t, some .alreadyConnected)
  else if dialOk then ({ t with isClient := true }, none)
  else (t, some .dialFailed)

/-- Split a raw character stream at every newline; the result always has
one part per newline plus a final (possibly empty) part. -/
def splitNL : List Char → List (List Char)
  | [] => [[]]
  | c :: rest =>
    if c = '\n' then [] :: splitNL rest
    else
      match splitNL rest with
      | [] => [[c]]
      | t :: ts => (c :: t) :: ts

/-- Strip one trailing carriage return from a token, as `bufio.ScanLines`
does. -/
def stripCR (l : List Char) : List Char :=
  if l.getLast? = some '\r' then l.dropLast else l

/-- The token sequence `bufio.Scanner` with the default `ScanLines` split
produces from the raw bytes of a connection: split at `\n`; the final part
is a token only when non-empty (so input ending in `\n` adds no empty
token and empty input yields no token); a trailing `\r` is stripped from
each token. -/
def scanLines (s : List Char) : List String :=
  let parts := splitNL s
  let parts2 := if parts.getLast? = some [] then parts.dropLast else parts
  parts2.map (fun l => String.mk (stripCR l))

/-- The message a received line is wrapped into by `handleConnection`
(part_003 lines 183-186): only `Content` and `ID` are set, and `ID` to the
empty string; `Timestamp` and `Source` keep their Go zero values. -/
def wireMessage (text : String) : Message :=
  { Content := text, ID := "", Timestamp := 0, Source := "" }

/-- Embedding of `TCPTransport.handleConnection` (part_003 lines 171-201):
given the scanned lines of one accepted connection, the sequence of
messages the reader loop places on the inbound channel.  Each iteration
first polls `ctx.Done()`; a non-empty line is wrapped by `wireMessage` and
sent, an empty line is skipped (`if text != ""`). -/
def handleConnection (ctxDone : Bool) : List String → List Message
  | [] => []
  | text :: rest =>
    if ctxDone then []
    else if text = "" then handleConnection ctxDone rest
    else wireMessage text :: handleConnection ctxDone rest

/-- Embedding of `factory.NodeConfig` (src/unnamed/part_001). -/
structure NodeConfig where
  Port : String
  ChildrenPorts : List String
deriving Repr, DecidableEq

/-- Embedding of `NodeConfig.GetNumChildren` (part_001 lines 92-94),
returning a Go `int`. -/
def configNumChildren (c : NodeConfig) : Int := (c.ChildrenPorts.length : Int)

/-- Embedding of `transport.Server` (pkg/transport/transport.go): one
transport of the abstract type `T` plus the bind address. -/
structure Server (T : Type) where
  transport : T
  address : String

/-- Embedding of `transport.Client` (pkg/transport/transport.go): one
transport of the abstract type `T` plus the remote address. -/
structure Client (T : Type) where
  transport : T
  address : String

/-- Embedding of `factory.BTreeNode` (part_002 lines 218-224, generalized
assembly): the btree node, the server, and one optional client per child
slot (`none` = Go nil pointer for an unconfigured slot). -/
structure BTreeAssembly (T : Type) where
  node : Node
  server : Server T
  childrenClients : List (Option (Client T))

/-- Embedding of `factory.NewBTreeNode` (part_002 lines 230-258): builds
the node named `node-<port>` with one child slot per configured port entry,
the server, and a client for each non-empty child port; its sole return
statement is `return btreeNode, nil`.  A crash of the inner `NewNode` would
propagate (it cannot occur: the child count is a length). -/
def NewBTreeNode (T : Type) (config : NodeConfig) (transportFactory : Unit → T) :
    GoResult (BTreeAssembly T × Option GoError) :=
  match NewNode ("node-" ++ config.Port) (configNumChildren config) with
  | .crash m => .crash m
  | .ok node =>
    .ok ({ node := node
           server := { transport := transportFactory (), address := config.Port }
           childrenClients := config.ChildrenPorts.map (fun p =>
             if p = "" then none
             else some { transport := transportFactory (), address := p }) },
         none)

/-- Outcome of the per-child connection task `connectToChild`, recording
how many connect attempts were made and how many one-unit waits completed. -/
inductive RetryResult
  | connected (attempts : Nat) (waits : Nat)
  | gaveUp (attempts : Nat) (waits : Nat)
  | cancelled (attempts : Nat) (waits : Nat)
deriving Repr, DecidableEq

/-- One unrolling of the retry loop of `BTreeNode.connectToChild`
(part_002 lines 360-383): `i` is the index of the next attempt, the second
argument the remaining loop iterations (10 at the start).  `ok i` is
whether `client.Connect` succeeds on attempt `i`; `cTop i` whether the
context is already done at the top of iteration `i`; `cWait i` whether the
context fires during the one-second wait after failed attempt `i`. -/
def connectLoop (ok cTop cWait : Nat → Bool) : Nat → Nat → RetryResult
  | i, 0 => .gaveUp i i
  | i, r + 1 =>
    if cTop i then .cancelled i i
    else if ok i then .connected (i + 1) i
    else if cWait i then .cancelled (i + 1) i
    else connectLoop ok cTop cWait (i + 1) r

/-- Embedding of `BTreeNode.connectToChild` (part_002 lines 360-383): the
bounded-retry loop with budget 10. -/
def connectToChild (ok cTop cWait : Nat → Bool) : RetryResult :=
  connectLoop ok cTop cWait 0 10

/-- Number of connect attempts a `RetryResult` records. -/
def attemptsOf : RetryResult → Nat
  | .connected a _ => a
  | .gaveUp a _ => a
  | .cancelled a _ => a

/-- Concrete node used by witness instantiations: one child slot, empty
queues. -/
def testNode : Node := { name := "p", inbound := [], childrenOut := [[]] }

/-- Concrete message used by witness instantiations. -/
def testMsg : Message :=
  { Content := "hello", ID := "i7", Timestamp := 5, Source := "orig" }

/-- Claim C1: with the context not cancelled, `HandleMessage` never blocks and
returns nil; each child slot whose queue has room receives the broadcast
message, each full slot keeps its queue unchanged (drop for that slot
only), the inbound queue is untouched, and a node with zero children
returns success with no state change at all. -/
theorem C1_handleMessage_best_effort (n : Node) (pick : Nat → Bool) (msg : Message) :
    (HandleMessage false pick n msg).2 = none ∧
    (HandleMessage false pick n msg).1.name = n.name ∧
    (HandleMessage false pick n msg).1.inbound = n.inbound ∧
    (HandleMessage false pick n msg).1.childrenOut.length = n.childrenOut.length ∧
    (∀ (i : Nat) (q : List Message), n.childrenOut[i]? = some q →
      (q.length < chanCap →
        (HandleMessage false pick n msg).1.childrenOut[i]? =
          some (q ++ [{ msg with Source := n.name }])) ∧
      (¬ q.length < chanCap →
        (HandleMessage false pick n msg).1.childrenOut[i]? = some q)) ∧
    (n.childrenOut = [] → HandleMessage false pick n msg = (n, none)) := by
  rw [HandleMessage_not_done]
  refine ⟨rfl, rfl, rfl, by simp, ?_, ?_⟩
  · intro i q hq
    constructor
    · intro hlt
      simp [List.getElem?_map, hq, hlt]
    · intro hge
      simp [List.getElem?_map, hq, hge]
  · intro hnil
    cases n
    simp_all

/-- Claim C1 witness: a node with one empty child queue delivers the message to
that queue and reports success. -/
theorem C1_witness :
    (HandleMessage false (fun _ => false) testNode testMsg).2 = none ∧
    (HandleMessage false (fun _ => false) testNode testMsg).1.childrenOut[0]? =
      some [{ testMsg with Source := "p" }] := by
  have h := C1_handleMessage_best_effort testNode (fun _ => false) testMsg
  refine ⟨h.1, ?_⟩
  have h2 := (h.2.2.2.2.1 0 [] rfl).1 (by decide)
  simpa using h2

/-- Claim C2: every copy that `HandleMessage` at node `n` delivers into a child
queue is the input message with `Source` rewritten to `n.name`: `Content`,
`Timestamp` and `ID` are unchanged. -/
theorem C2_hop_rewrites_source_only (n : Node) (pick : Nat → Bool) (msg : Message)
    (i : Nat) (q : List Message) (hq : n.childrenOut[i]? = some q)
    (hroom : q.length < chanCap) :
    ∃ m2, (HandleMessage false pick n msg).1.childrenOut[i]? = some (q ++ [m2]) ∧
      m2.Content = msg.Content ∧ m2.Source = n.name ∧
      m2.Timestamp = msg.Timestamp ∧ m2.ID = msg.ID := by
  refine ⟨{ msg with Source := n.name }, ?_, rfl, rfl, rfl, rfl⟩
  rw [HandleMessage_not_done]
  simp [List.getElem?_map, hq, hroom]

/-- Claim C2 witness: the concrete delivered copy keeps content, id and
timestamp and carries the node's name as source. -/
theorem C2_witness :
    ∃ m2, (HandleMessage false (fun _ => false) testNode testMsg).1.childrenOut[0]? =
        some ([] ++ [m2]) ∧
      m2.Content = "hello" ∧ m2.Source = "p" ∧ m2.Timestamp = 5 ∧ m2.ID = "i7" := by
  have h := C2_hop_rewrites_source_only testNode (fun _ => false) testMsg 0 [] rfl (by decide)
  simpa using h

/-- Claim C4: `SendToChild` returns an index error for every index outside
`[0, arity)` (for every arity, with no state change, no panic); for an
in-range index it enqueues onto the chosen child queue when there is room
(when the context is also done the select race oracle decides), returns
the cancellation error when the context is done, and blocks when the queue
is full and the context is live. -/
theorem C4_sendToChild_range (n : Node) (ctxDone pick : Bool) (i : Int) (msg : Message) :
    ((i < 0 ∨ (n.childrenOut.length : Int) ≤ i) →
      SendToChild ctxDone pick n i msg =
        (n, .err (.indexOutOfRange i n.childrenOut.length))) ∧
    (0 ≤ i → i < (n.childrenOut.length : Int) →
      (((n.childrenOut.getD i.toNat []).length < chanCap →
        (ctxDone = false ∨ pick = true) →
        SendToChild ctxDone pick n i msg =
          ({ n with childrenOut :=
              n.childrenOut.set i.toNat ((n.childrenOut.getD i.toNat []) ++ [msg]) },
           .ok)) ∧
      ((n.childrenOut.getD i.toNat []).length < chanCap → ctxDone = true → pick = false →
        SendToChild ctxDone pick n i msg = (n, .err .contextCanceled)) ∧
      (¬ (n.childrenOut.getD i.toNat []).length < chanCap → ctxDone = true →
        SendToChild ctxDone pick n i msg = (n, .err .contextCanceled)) ∧
      (¬ (n.childrenOut.getD i.toNat []).length < chanCap → ctxDone = false →
        SendToChild ctxDone pick n i msg = (n, .blocked)))) := by
  constructor
  · intro h
    simp [SendToChild, h]
  · intro h0 hlt
    have hcond : ¬ (i < 0 ∨ (n.childrenOut.length : Int) ≤ i) := by omega
    refine ⟨?_, ?_, ?_, ?_⟩
    · rintro hroom (hc | hp)
      · subst hc
        rw [List.getD_eq_getElem?_getD] at hroom
        simp [SendToChild, hcond, hroom]
      · subst hp
        rw [List.getD_eq_getElem?_getD] at hroom
        simp [SendToChild, hcond, hroom]
    · intro hroom hc hp
      subst hc; subst hp
      rw [List.getD_eq_getElem?_getD] at hroom
      simp [SendToChild, hcond, hroom]
    · intro hfull hc
      subst hc
      rw [List.getD_eq_getElem?_getD] at hfull
      simp [SendToChild, hcond, hfull]
    · intro hfull hc
      subst hc
      rw [List.getD_eq_getElem?_getD] at hfull
      simp [SendToChild, hcond, hfull]

/-- Claim C4 witness: arity-1 node, index 2 is rejected with an index error and
index 0 enqueues. -/
theorem C4_witness :
    SendToChild false false testNode 2 testMsg =
      (testNode, .err (.indexOutOfRange 2 1)) ∧
    SendToChild false false testNode 0 testMsg =
      ({ testNode with childrenOut := [[testMsg]] }, .ok) := by
  constructor
  · exact (C4_sendToChild_range testNode false false 2 testMsg).1 (by decide)
  · have h := ((C4_sendToChild_range testNode false false 0 testMsg).2 (by decide)
      (by decide)).1 (by decide) (Or.inl rfl)
    simpa using h

/-- Claim C8: every failing `SendToChild` call (index error or cancellation)
returns the node unchanged — same name, arity, queues and queue contents —
and `GetChildChannel` never changes the node, in particular when it
returns its index error. -/
theorem C8_failure_frame (n : Node) (ctxDone pick : Bool) (i : Int) (msg : Message)
    (e : GoError) :
    ((SendToChild ctxDone pick n i msg).2 = .err e →
      (SendToChild ctxDone pick n i msg).1 = n) ∧
    (∀ j : Int, (GetChildChannel n j).1 = n) := by
  constructor
  · intro he
    simp only [SendToChild] at he ⊢
    split_ifs at he ⊢ <;> simp_all
  · intro j
    unfold GetChildChannel
    split <;> rfl

/-- Claim C8 witness: the out-of-range call on the concrete node fails and
leaves the node intact. -/
theorem C8_witness :
    (SendToChild false false testNode (-1) testMsg).1 = testNode ∧
    (GetChildChannel testNode 5).1 = testNode := by
  have h := C8_failure_frame testNode false false (-1) testMsg
    (.indexOutOfRange (-1) 1)
  exact ⟨h.1 (by decide), h.2 5⟩

/-- Claim C9: `GetLeftChannel`/`GetRightChannel` return Go `nil` (here `none`)
rather than an error when the slot is missing: arity 0 gives `none` for
both, arity 1 gives `none` on the right; when slot 0 (resp. 1) exists the
queue at that index is returned. -/
theorem C9_left_right_nil_fallback (n : Node) :
    (n.childrenOut.length = 0 → GetLeftChannel n = none ∧ GetRightChannel n = none) ∧
    (n.childrenOut.length = 1 → GetRightChannel n = none) ∧
    (∀ q, n.childrenOut[0]? = some q → GetLeftChannel n = some q) ∧
    (∀ q, n.childrenOut[1]? = some q → GetRightChannel n = some q) := by
  refine ⟨?_, ?_, ?_, ?_⟩
  · intro h
    constructor
    · simp [GetLeftChannel, h]
    · simp [GetRightChannel, h]
  · intro h
    simp [GetRightChannel, h]
  · intro q hq
    have hlen : 0 < n.childrenOut.length := by
      cases hg : n.childrenOut.length with
      | zero =>
        rw [List.length_eq_zero] at hg
        simp [hg] at hq
      | succ k => omega
    simp only [GetLeftChannel, dif_pos hlen]
    rw [List.getElem?_eq_getElem hlen] at hq
    simpa using hq
  · intro q hq
    have hlen : 1 < n.childrenOut.length := by
      by_contra hc
      push_neg at hc
      rw [List.getElem?_eq_none hc] at hq
      cases hq
    simp only [GetRightChannel, dif_pos hlen]
    rw [List.getElem?_eq_getElem hlen] at hq
    simpa using hq

/-- Claim C9 witness: on the arity-1 concrete node the left accessor returns the
single queue and the right accessor returns `none`. -/
theorem C9_witness :
    GetLeftChannel testNode = some [] ∧ GetRightChannel testNode = none := by
  have h := C9_left_right_nil_fallback testNode
  exact ⟨h.2.2.1 [] rfl, h.2.1 rfl⟩

/-- Claim C3 counterexample: a fresh transport that has successfully connected
still accepts `Listen`: the call returns a nil error and leaves the one
instance both listening and connected, refuting both "listen fails
whenever the transport is already Connected" and "no sequence of
listen/connect calls can leave an instance both listening and
connected". -/
theorem C3_counterexample :
    (Connect NewTCPTransport true).2 = none ∧
    (Connect NewTCPTransport true).1.isClient = true ∧
    (Listen (Connect NewTCPTransport true).1 true).2 = none ∧
    (Listen (Connect NewTCPTransport true).1 true).1.isServer = true ∧
    (Listen (Connect NewTCPTransport true).1 true).1.isClient = true :=
  ⟨rfl, rfl, rfl, rfl, rfl⟩

/-- Claim C3 amended: `Listen` fails precisely when the instance is already
listening and `Connect` precisely when it is already connected; neither
call consults the other role flag, so a bind on a connected instance (or a
dial on a listening one) succeeds and sets the second flag alongside the
first. -/
theorem C3_role_flags (t : TCPTransport) (bindOk dialOk : Bool) :
    ((Listen t bindOk).2 = some .alreadyListening ↔ t.isServer = true) ∧
    (t.isServer = false → bindOk = true →
      (Listen t bindOk).2 = none ∧ (Listen t bindOk).1.isServer = true ∧
      (Listen t bindOk).1.isClient = t.isClient) ∧
    (t.isServer = false → bindOk = false →
      Listen t bindOk = (t, some .bindFailed)) ∧
    ((Connect t dialOk).2 = some .alreadyConnected ↔ t.isClient = true) ∧
    (t.isClient = false → dialOk = true →
      (Connect t dialOk).2 = none ∧ (Connect t dialOk).1.isClient = true ∧
      (Connect t dialOk).1.isServer = t.isServer) ∧
    (t.isClient = false → dialOk = false →
      Connect t dialOk = (t, some .dialFailed)) := by
  obtain ⟨s, c, inb, outb⟩ := t
  cases s <;> cases c <;> cases bindOk <;> cases dialOk <;>
    simp [Listen, Connect]

/-- Claim C3 witness: a fresh transport binds successfully. -/
theorem C3_witness :
    (Listen NewTCPTransport true).2 = none ∧
    (Listen NewTCPTransport true).1.isServer = true := by
  have h := (C3_role_flags NewTCPTransport true true).2.1 rfl rfl
  exact ⟨h.1, h.2.1⟩

/-- Claim C5 counterexample: constructing a node with arity −1 is a Go runtime
panic (`make` with a negative length), not a graceful failure — the
constructor has no error return at all. -/
theorem C5_counterexample :
    NewNode "n" (-1) = .crash "makeslice: len out of range" := rfl

/-- Claim C5 amended: for every arity `a ≥ 0` the constructor returns a node
with exactly `a` child outbound queues (all empty) and one empty inbound
queue; for `a < 0` the constructor crashes with a runtime panic instead of
failing gracefully. -/
theorem C5_newNode_arity (name : String) (a : Int) :
    (0 ≤ a → ∃ node, NewNode name a = .ok node ∧
      (node.childrenOut.length : Int) = a ∧
      (∀ q ∈ node.childrenOut, q = ([] : List Message)) ∧
      node.inbound = []) ∧
    (a < 0 → ∃ m, NewNode name a = .crash m) := by
  constructor
  · intro h0
    have hnot : ¬ a < 0 := not_lt.mpr h0
    refine ⟨{ name := name, inbound := [],
              childrenOut := List.replicate a.toNat [] }, ?_, ?_, ?_, rfl⟩
    · simp [NewNode, hnot]
    · simp [Int.toNat_of_nonneg h0]
    · intro q hq
      exact List.eq_of_mem_replicate hq
  · intro hneg
    exact ⟨"makeslice: len out of range", by simp [NewNode, hneg]⟩

/-- Claim C5 witness: arity 3 gives three empty child queues and an empty
inbound queue. -/
theorem C5_witness :
    ∃ node, NewNode "w" 3 = .ok node ∧ (node.childrenOut.length : Int) = 3 ∧
      (∀ q ∈ node.childrenOut, q = ([] : List Message)) ∧ node.inbound = [] :=
  (C5_newNode_arity "w" 3).1 (by decide)

/-- Claim C6 counterexample: the raw bytes of a single newline are one received
(empty) line, but the reader loop places zero messages on the inbound
queue — the `if text != ""` guard drops empty lines, so "every line yields
exactly one Message" fails. -/
theorem C6_counterexample :
    scanLines ['\n'] = [""] ∧
    handleConnection false (scanLines ['\n']) = [] := by
  exact ⟨rfl, rfl⟩

/-- Closed form of the reader loop with the context live: one message per
non-empty line, in order, empty lines dropped. -/
theorem handleConnection_not_done (lines : List String) :
    handleConnection false lines =
      (lines.filter (fun t => !(t == ""))).map wireMessage := by
  induction lines with
  | nil => rfl
  | cons t rest ih =>
    by_cases h : t = ""
    · simp [handleConnection, h, ih]
    · simp [handleConnection, h, ih]

/-- Claim C6 amended: each NON-empty line received on an accepted connection
yields exactly one message whose content is the delimiter-trimmed line and
whose id, timestamp and source are the zero values; empty lines yield no
message.  In particular the raw bytes "ping\n" yield exactly one message
with content "ping" and empty id and source. -/
theorem C6_line_decoding (lines : List String) :
    handleConnection false lines =
      (lines.filter (fun t => !(t == ""))).map wireMessage ∧
    (∀ m ∈ handleConnection false lines,
      m.ID = "" ∧ m.Timestamp = 0 ∧ m.Source = "") ∧
    handleConnection false (scanLines ['p', 'i', 'n', 'g', '\n']) =
      [{ Content := "ping", ID := "", Timestamp := 0, Source := "" }] := by
  refine ⟨handleConnection_not_done lines, ?_, rfl⟩
  intro m hm
  rw [handleConnection_not_done] at hm
  simp only [List.mem_map] at hm
  obtain ⟨t, _, rfl⟩ := hm
  exact ⟨rfl, rfl, rfl⟩

/-- Claim C6 witness: the message decoded from the line "ping" carries the zero
metadata fields. -/
theorem C6_witness :
    (wireMessage "ping").ID = "" ∧ (wireMessage "ping").Timestamp = 0 ∧
    (wireMessage "ping").Source = "" := by
  exact (C6_line_decoding ["ping"]).2.1 (wireMessage "ping") (by simp [handleConnection])

/-- The number of attempts `connectLoop` records never exceeds the initial
attempt index plus the remaining budget. -/
theorem connectLoop_attempts_le (ok cTop cWait : Nat → Bool) :
    ∀ (r i : Nat), attemptsOf (connectLoop ok cTop cWait i r) ≤ i + r := by
  intro r
  induction r with
  | zero =>
    intro i
    simp [connectLoop, attemptsOf]
  | succ k ih =>
    intro i
    simp only [connectLoop]
    split_ifs
    · simp only [attemptsOf]; omega
    · simp only [attemptsOf]; omega
    · simp only [attemptsOf]; omega
    · have h := ih (i + 1)
      omega

/-- Running the whole budget with every attempt failing and no
cancellation exhausts the loop: it gives up after exactly the budgeted
attempts, each followed by a completed wait. -/
theorem connectLoop_exhaust (ok cTop cWait : Nat → Bool)
    (hok : ∀ j, ok j = false) (hct : ∀ j, cTop j = false)
    (hcw : ∀ j, cWait j = false) :
    ∀ (r i : Nat), connectLoop ok cTop cWait i r = .gaveUp (i + r) (i + r) := by
  intro r
  induction r with
  | zero =>
    intro i
    simp [connectLoop]
  | succ k ih =>
    intro i
    have h := ih (i + 1)
    simp only [connectLoop, hok, hct, hcw, if_false, Bool.false_eq_true]
    rw [h]
    congr 1 <;> omega

/-- The loop connects on the first successful attempt `k` (everything
before `k` failing, no cancellation up to `k`), having made `k + 1`
attempts and completed `k` waits. -/
theorem connectLoop_success (ok cTop cWait : Nat → Bool) :
    ∀ (r i k : Nat), i ≤ k → k < i + r →
      (∀ j, i ≤ j → j < k → ok j = false) → ok k = true →
      (∀ j, i ≤ j → j ≤ k → cTop j = false) →
      (∀ j, i ≤ j → j < k → cWait j = false) →
      connectLoop ok cTop cWait i r = .connected (k + 1) k := by
  intro r
  induction r with
  | zero =>
    intro i k h1 h2
    omega
  | succ m ih =>
    intro i k h1 h2 hfail hok hct hcw
    rcases eq_or_lt_of_le h1 with rfl | hlt
    · simp [connectLoop, hct i le_rfl le_rfl, hok]
    · have hoki : ok i = false := hfail i le_rfl hlt
      have hcti : cTop i = false := hct i le_rfl (by omega)
      have hcwi : cWait i = false := hcw i le_rfl hlt
      simp only [connectLoop, hoki, hcti, hcwi, if_false, Bool.false_eq_true]
      exact ih (i + 1) k (by omega) (by omega)
        (fun j hj1 hj2 => hfail j (by omega) hj2) hok
        (fun j hj1 hj2 => hct j (by omega) hj2)
        (fun j hj1 hj2 => hcw j (by omega) hj2)

/-- Claim C7: the per-child connection task makes at most 10 connect attempts in
every environment; when every attempt fails and nothing is cancelled it
returns normally (no crash) with exactly 10 attempts, each followed by a
completed one-unit wait, and gives up for good; it stops early with
`connected` on the first successful attempt and exits on cancellation. -/
theorem C7_bounded_retry (ok cTop cWait : Nat → Bool) :
    attemptsOf (connectToChild ok cTop cWait) ≤ 10 ∧
    ((∀ j, ok j = false) → (∀ j, cTop j = false) → (∀ j, cWait j = false) →
      connectToChild ok cTop cWait = .gaveUp 10 10) ∧
    (∀ k, k < 10 → (∀ j, j < k → ok j = false) → ok k = true →
      (∀ j, j ≤ k → cTop j = false) → (∀ j, j < k → cWait j = false) →
      connectToChild ok cTop cWait = .connected (k + 1) k) ∧
    (cTop 0 = true → connectToChild ok cTop cWait = .cancelled 0 0) := by
  refine ⟨?_, ?_, ?_, ?_⟩
  · simpa using connectLoop_attempts_le ok cTop cWait 10 0
  · intro h1 h2 h3
    simpa using connectLoop_exhaust ok cTop cWait h1 h2 h3 10 0
  · intro k hk hfail hok hct hcw
    exact connectLoop_success ok cTop cWait 10 0 k (by omega) (by omega)
      (fun j _ hj => hfail j hj) hok (fun j _ hj => hct j hj)
      (fun j _ hj => hcw j hj)
  · intro h
    simp [connectToChild, connectLoop, h]

/-- Claim C7 witness: with an unreachable peer (every dial fails) and no
shutdown, the task stops after exactly 10 attempts and 10 waits. -/
theorem C7_witness :
    connectToChild (fun _ => false) (fun _ => false) (fun _ => false) =
      .gaveUp 10 10 := by
  exact (C7_bounded_retry (fun _ => false) (fun _ => false) (fun _ => false)).2.1
    (fun _ => rfl) (fun _ => rfl) (fun _ => rfl)

/-- Claim C10: assembly construction is total and its error result is always
nil: for every configuration and transport factory, `NewBTreeNode` returns
normally (no crash — the inner arity is a list length, hence nonnegative)
with a nil error and an assembly holding one client slot per configured
child-port entry and a node of matching arity. -/
theorem C10_assembly_construction_total (T : Type) (config : NodeConfig)
    (transportFactory : Unit → T) :
    ∃ bn, NewBTreeNode T config transportFactory = .ok (bn, none) ∧
      bn.childrenClients.length = config.ChildrenPorts.length ∧
      GetNumChildren bn.node = config.ChildrenPorts.length ∧
      bn.server.address = config.Port := by
  have h : ¬ (configNumChildren config < 0) := by
    simp [configNumChildren]
  refine ⟨{ node := { name := "node-" ++ config.Port, inbound := [],
                      childrenOut :=
                        List.replicate (configNumChildren config).toNat [] },
            server := { transport := transportFactory (), address := config.Port },
            childrenClients := config.ChildrenPorts.map (fun p =>
              if p = "" then none
              else some { transport := transportFactory (), address := p }) },
          ?_, ?_, ?_, rfl⟩
  · simp [NewBTreeNode, NewNode, h]
  · simp
  · simp [GetNumChildren, configNumChildren]

